import Mathlib

/-!
# Verification of the Rein remote-control server core

Shallow embedding of the connection gate, token store, message router,
mirror (request-frame) state machine, and input normalizer of the Rein
repository, together with proofs settling the frozen specification claims.

Sources embedded:
* tokenStore (storeToken, isKnownToken, touchToken, getActiveToken, purge)
* createWsServer: upgrade handler, connection handler, message dedup loop,
  generate-token handler, update-config handler, request-frame handler
* InputHandler.handleMessage: sanitization, 16 ms move/scroll throttle,
  move/click/scroll/zoom/key/combo/text dispatch

Machine integers and JS timestamps are modelled as Nat (milliseconds);
JS floating point numbers are modelled by the JsNum type (a rational or
one of the three non-finite values), with explicit NaN/Infinity
propagation where the embedded code can meet them.
-/

namespace Rein

/-! ## Token store (tokenStore.ts) -/

/-- One persisted token entry: value plus creation and last-use stamps. -/
structure TokenEntry where
  token : String
  createdAt : Nat
  lastUsed : Nat
deriving Repr, DecidableEq

/-- EXPIRY_MS = 10 days, as in the source. -/
def EXPIRY_MS : Nat := 10 * 24 * 60 * 60 * 1000

/-- purgeExpired: drop entries with now - lastUsed >= EXPIRY_MS.
JS computes a possibly negative difference which is always below the
window; Nat truncated subtraction yields 0 there, which agrees. -/
def purgeExpired (now : Nat) (ts : List TokenEntry) : List TokenEntry :=
  ts.filter (fun t => now - t.lastUsed < EXPIRY_MS)

/-- timingSafeEqual on strings: equal length and equal bytes, which for
the embedding is plain string equality. -/
def timingSafeEqual (a b : String) : Bool := a == b

/-- Refresh lastUsed of the first entry holding the given token
(JS Array.prototype.find returns the first match, mutated in place). -/
def touchFirst (token : String) (now : Nat) : List TokenEntry → List TokenEntry
  | [] => []
  | t :: rest =>
    if timingSafeEqual t.token token then { t with lastUsed := now } :: rest
    else t :: touchFirst token now rest

/-- storeToken: purge, then refresh the entry if present, else append a
fresh entry with createdAt = lastUsed = now. -/
def storeToken (token : String) (now : Nat) (ts : List TokenEntry) : List TokenEntry :=
  let purged := purgeExpired now ts
  if purged.any (fun t => timingSafeEqual t.token token) then
    touchFirst token now purged
  else
    purged ++ [{ token := token, createdAt := now, lastUsed := now }]

/-- isKnownToken: purge (a mutation of the store), then membership test.
Returns the answer together with the mutated store. -/
def isKnownToken (token : String) (now : Nat) (ts : List TokenEntry) :
    Bool × List TokenEntry :=
  let purged := purgeExpired now ts
  (purged.any (fun t => timingSafeEqual t.token token), purged)

/-- touchToken: refresh lastUsed of the entry if found (no purge). -/
def touchToken (token : String) (now : Nat) (ts : List TokenEntry) : List TokenEntry :=
  touchFirst token now ts

/-- The entry a stable descending sort on lastUsed would put first:
maximal lastUsed, earliest list position among ties. -/
def mostRecentlyUsed : List TokenEntry → Option TokenEntry
  | [] => none
  | t :: rest =>
    match mostRecentlyUsed rest with
    | none => some t
    | some u => if u.lastUsed > t.lastUsed then some u else some t

/-- getActiveToken: purge, then the most recently used token, if any. -/
def getActiveToken (now : Nat) (ts : List TokenEntry) :
    Option String × List TokenEntry :=
  let purged := purgeExpired now ts
  ((mostRecentlyUsed purged).map TokenEntry.token, purged)

/-- Membership of a token value in the store. -/
def hasToken (token : String) (ts : List TokenEntry) : Bool :=
  ts.any (fun t => timingSafeEqual t.token token)

/-! ## Connection gate (createWsServer: upgrade handler) -/

/-- JS truthiness of the token query parameter: null and the empty
string are falsy. -/
def tokenTruthy : Option String → Bool
  | none => false
  | some s => s ≠ ""

/-- Outcome of an upgrade request on the /ws path.
`rejected401` means the raw socket received a 401 response and was
destroyed before any connection or session state was created;
`admitted` means wss.handleUpgrade ran and the connection event fired
with the given locality flag. -/
inductive UpgradeResult where
  | rejected401
  | admitted (isLocal : Bool) (token : Option String)
deriving Repr, DecidableEq

/-- The upgrade handler: local callers are admitted unconditionally;
remote callers need a truthy token that isKnownToken accepts, otherwise
401 + socket destroy.  Returns the decision and the (possibly purged)
token store. -/
def upgradeDecision (isLocal : Bool) (token : Option String) (now : Nat)
    (ts : List TokenEntry) : UpgradeResult × List TokenEntry :=
  if isLocal then (.admitted true token, ts)
  else if ¬ tokenTruthy token then (.rejected401, ts)
  else if ¬ (isKnownToken (token.getD "") now ts).1 then
    (.rejected401, (isKnownToken (token.getD "") now ts).2)
  else (.admitted false token, (isKnownToken (token.getD "") now ts).2)

/-! ## Connection handler token storage (createWsServer: connection) -/

/-- On the connection event the source runs
`if (token && (isKnownToken(token) || !isLocal)) storeToken(token)`.
Short-circuit: isKnownToken (which purges) runs only for a truthy
token; storeToken runs only when known or remote. -/
def connectionTokenStore (token : Option String) (isLocal : Bool) (now : Nat)
    (ts : List TokenEntry) : List TokenEntry :=
  if tokenTruthy token then
    if (isKnownToken (token.getD "") now ts).1 ∨ ¬ isLocal then
      storeToken (token.getD "") now (isKnownToken (token.getD "") now ts).2
    else (isKnownToken (token.getD "") now ts).2
  else ts

/-! ## generate-token handler (createWsServer: message loop) -/

/-- Response of the generate-token message handler. -/
inductive GenTokenResult where
  | authError
  | tokenGenerated (token : String)
deriving Repr, DecidableEq

/-- The generate-token handler: non-local callers get auth-error and no
store change; local callers get the active (most recently used,
unexpired) token when getActiveToken yields a truthy value, else a
freshly generated token which is stored.  The source guards with
`if (!tokenToReturn)`, a JS falsy check, so a null result AND an
empty-string token value both trigger fresh generation; tokenTruthy
captures exactly that.  `fresh` stands for the crypto.randomUUID
result. -/
def generateTokenHandler (isLocal : Bool) (fresh : String) (now : Nat)
    (ts : List TokenEntry) : GenTokenResult × List TokenEntry :=
  if ¬ isLocal then (.authError, ts)
  else if tokenTruthy (getActiveToken now ts).1 then
    (.tokenGenerated ((getActiveToken now ts).1.getD ""), (getActiveToken now ts).2)
  else (.tokenGenerated fresh, storeToken fresh now (getActiveToken now ts).2)

/-! ## Message routing and dedup (createWsServer: message loop) -/

/-- 10 KB control-message limit. -/
def MAX_PAYLOAD_SIZE : Nat := 10 * 1024

/-- Duplicate-suppression window in milliseconds. -/
def DUPLICATE_WINDOW_MS : Nat := 100

/-- Dedup state of one connection: the raw payload last processed and
its arrival time. -/
structure DedupSt where
  lastRaw : String
  lastTime : Nat
deriving Repr, DecidableEq

/-- What the message loop did with one inbound structured message. -/
inductive MsgAction where
  | droppedTooLarge
  | droppedDuplicate
  | frameHandler
  | handled
deriving Repr, DecidableEq

/-- The head of the message handler in websocket.ts: size limit, then
duplicate suppression for every type except request-frame (which is
never filtered and leaves the dedup state untouched), then dispatch.
`mtype` is the type field JSON.parse extracts from `raw`. -/
def routeMessage (raw mtype : String) (now : Nat) (st : DedupSt) :
    MsgAction × DedupSt :=
  if raw.length > MAX_PAYLOAD_SIZE then (.droppedTooLarge, st)
  else if mtype ≠ "request-frame" then
    if raw == st.lastRaw ∧ now - st.lastTime < DUPLICATE_WINDOW_MS then
      (.droppedDuplicate, st)
    else (.handled, { lastRaw := raw, lastTime := now })
  else (.frameHandler, st)

/-! ## request-frame state machine (createWsServer: request-frame) -/

/-- JS Math.round: floor of x + 1/2. -/
def jsRound (q : ℚ) : ℤ := Int.floor (q + 1 / 2)

/-- Per-connection mirror state (the fields the frame path touches;
loggedWaylandWarning only gates a log line and is omitted). -/
structure FrameSt where
  frameInProgress : Bool
  frameW : Nat
  frameH : Nat
deriving Repr, DecidableEq

/-- Messages the frame path can push to the client. `closeConn` is in
the action alphabet so that never closing is a statable property; the
source contains no close call on this path. -/
inductive Emit where
  | frameBinary
  | mirrorError (message : String) (isWayland : Bool)
  | closeConn
deriving Repr, DecidableEq

/-- Result of the awaited capture section: a grabbed image of the given
raw dimensions, or a raised error message (TIMEOUT, GRAB_FAILED, a
sharp failure, ...). -/
inductive CaptureOutcome where
  | ok (imgW imgH : Nat)
  | err (message : String)
deriving Repr, DecidableEq

/-- Events of the request-frame path.  `request` is the arrival of a
request-frame message (with the synchronous environment checks);
`complete` is the resumption after the awaited capture section ends. -/
inductive FrameEv where
  | request (envWayland wsOpen : Bool)
  | complete (out : CaptureOutcome) (wsOpen envWayland : Bool)
deriving Repr, DecidableEq

/-- The user-facing mirror-error text, distinguishing the
unsupported-environment condition. -/
def mirrorErrMessage (m : String) : String :=
  if m = "WAYLAND_UNSUPPORTED" then "Screen capture not supported on Wayland"
  else "Mirroring failed"

/-- One step of the request-frame path.  A request during an in-flight
capture is dropped by the guard.  A request on Wayland runs the whole
try/catch/finally synchronously: typed mirror-error, flag cleared.
Otherwise the flag is set and the capture starts; on completion the
geometry is recorded on success, a mirror-error is sent on failure (if
the socket is still open), and the flag is cleared on every path (the
finally block). -/
def frameStep (st : FrameSt) : FrameEv → FrameSt × List Emit
  | .request envW wsOpen =>
    if st.frameInProgress then (st, [])
    else if envW then
      ({ st with frameInProgress := false },
       if wsOpen then [.mirrorError (mirrorErrMessage "WAYLAND_UNSUPPORTED") true]
       else [])
    else ({ st with frameInProgress := true }, [])
  | .complete out wsOpen envW =>
    if st.frameInProgress = false then (st, [])
    else
      match out with
      | .ok w h =>
        let fw := min 640 w
        let fh := (jsRound ((fw * h : ℚ) / (w : ℚ))).toNat
        ({ frameInProgress := false, frameW := fw, frameH := fh },
         if wsOpen then [.frameBinary] else [])
      | .err m =>
        ({ st with frameInProgress := false },
         if wsOpen then [.mirrorError (mirrorErrMessage m) envW] else [])

/-! ## update-config handler (part_004 variant of createWsServer) -/

/-- Modelled JSON values, as far as the config handler inspects them. -/
inductive CVal where
  | num (n : ℚ)
  | nanv
  | infv (negative : Bool)
  | str (s : String)
  | boolv (b : Bool)
  | nullv
  | arrv (l : List CVal)
  | objv (l : List (String × CVal))

/-- JS Number() coercion for the shapes the handler can meet.  Strings
are handled for the plain decimal forms; other strings give NaN, as do
objects and multi-element arrays. -/
def toNumber : CVal → CVal
  | .num n => .num n
  | .nanv => .nanv
  | .infv b => .infv b
  | .boolv b => .num (if b then 1 else 0)
  | .nullv => .num 0
  | .str s =>
    if s.trim = "" then .num 0
    else match s.trim.toNat? with
      | some n => .num n
      | none => .nanv
  | .arrv [] => .num 0
  | .arrv [v] => toNumber v
  | .arrv _ => .nanv
  | .objv _ => .nanv

/-- The allow list of the update-config handler. -/
def SERVER_CONFIG_KEYS : List String := ["host", "frontendPort", "address"]

/-- Property lookup on a JSON object (first occurrence). -/
def lookupKey (fields : List (String × CVal)) (k : String) : Option CVal :=
  (fields.find? (fun p => p.1 == k)).map (fun p => p.2)

/-- The port validation of the handler: Number.isFinite, in [1, 65535],
and integral.  Returns the accepted numeric value. -/
def validPort : CVal → Option ℚ
  | .num q => if 1 ≤ q ∧ q ≤ 65535 ∧ q.den = 1 then some q else none
  | _ => none

/-- Walk the allow list in order, building the filtered record.  A
present frontendPort failing validation aborts the whole handler
(`none`); a host or address of the wrong shape or over 255 units is
skipped silently. -/
def filterKeys (fields : List (String × CVal)) :
    List String → Option (List (String × CVal))
  | [] => some []
  | k :: ks =>
    match lookupKey fields k with
    | none => filterKeys fields ks
    | some v =>
      if k == "frontendPort" then
        match validPort (toNumber v) with
        | none => none
        | some q => (filterKeys fields ks).map (fun rest => (k, CVal.num q) :: rest)
      else
        match v with
        | .str s =>
          if s.length ≤ 255 then
            (filterKeys fields ks).map (fun rest => (k, v) :: rest)
          else filterKeys fields ks
        | _ => filterKeys fields ks

/-- Outcome of the update-config handler.  Every branch except
`updated` sends a structured config-updated failure and writes
nothing; `updated` merges exactly the filtered entries into the config
file and reports success.  No branch closes the connection. -/
inductive UCResult where
  | invalidPayload
  | invalidPort
  | noValidKeys
  | updated (filtered : List (String × CVal))

/-- The update-config handler on the parsed msg.config value. -/
def updateConfigHandler : Option CVal → UCResult
  | some (.objv fields) =>
    match filterKeys fields SERVER_CONFIG_KEYS with
    | none => .invalidPort
    | some [] => .noValidKeys
    | some fs => .updated fs
  | _ => .invalidPayload

/-- The structured reply each outcome sends: success flag of the
config-updated message, and whether the handler closed the connection
(it never does; there is no close call in the handler). -/
def ucResponse : UCResult → Bool × Bool
  | .updated _ => (true, false)
  | _ => (false, false)

/-! ## JS numbers (for InputHandler payload fields) -/

/-- A JS number: a finite rational or one of the non-finite values. -/
inductive JsNum where
  | fin (q : ℚ)
  | nan
  | posInf
  | negInf
deriving Repr, DecidableEq

/-- Number.isFinite. -/
def JsNum.isFinite : JsNum → Bool
  | .fin _ => true
  | _ => false

/-- JS addition with NaN and infinity propagation. -/
def JsNum.add : JsNum → JsNum → JsNum
  | .nan, _ => .nan
  | _, .nan => .nan
  | .posInf, .negInf => .nan
  | .negInf, .posInf => .nan
  | .posInf, _ => .posInf
  | _, .posInf => .posInf
  | .negInf, _ => .negInf
  | _, .negInf => .negInf
  | .fin a, .fin b => .fin (a + b)

/-- JS unary minus. -/
def JsNum.neg : JsNum → JsNum
  | .fin q => .fin (-q)
  | .nan => .nan
  | .posInf => .negInf
  | .negInf => .posInf

/-- Math.sign. -/
def JsNum.sign : JsNum → JsNum
  | .fin q => .fin (if 0 < q then 1 else if q < 0 then -1 else 0)
  | .nan => .nan
  | .posInf => .fin 1
  | .negInf => .fin (-1)

/-- Math.abs. -/
def JsNum.absJ : JsNum → JsNum
  | .fin q => .fin |q|
  | .nan => .nan
  | _ => .posInf

/-- JS multiplication (only the cases the zoom path can reach need to
be exact; NaN propagates, infinity times zero is NaN). -/
def JsNum.mul : JsNum → JsNum → JsNum
  | .nan, _ => .nan
  | _, .nan => .nan
  | .fin a, .fin b => .fin (a * b)
  | .fin a, .posInf => if a = 0 then .nan else if 0 < a then .posInf else .negInf
  | .fin a, .negInf => if a = 0 then .nan else if 0 < a then .negInf else .posInf
  | .posInf, .fin b => if b = 0 then .nan else if 0 < b then .posInf else .negInf
  | .negInf, .fin b => if b = 0 then .nan else if 0 < b then .negInf else .posInf
  | .posInf, .posInf => .posInf
  | .posInf, .negInf => .negInf
  | .negInf, .posInf => .negInf
  | .negInf, .negInf => .posInf

/-- Math.min of two values (NaN-propagating). -/
def JsNum.minJ : JsNum → JsNum → JsNum
  | .nan, _ => .nan
  | _, .nan => .nan
  | .fin a, .fin b => .fin (min a b)
  | .posInf, b => b
  | a, .posInf => a
  | .negInf, _ => .negInf
  | _, .negInf => .negInf

/-- JS strict comparison with 0 (`x > 0`). -/
def JsNum.gtZero : JsNum → Bool
  | .fin q => 0 < q
  | .posInf => true
  | _ => false

/-! ## InputHandler messages and sanitization -/

/-- The parsed InputMessage record.  `none` models an absent
(undefined) field. -/
structure InMsg where
  mtype : String
  dx : Option JsNum
  dy : Option JsNum
  button : Option String
  press : Option Bool
  key : Option String
  keys : Option (List String)
  text : Option String
  delta : Option JsNum
deriving Repr, DecidableEq

/-- An InMsg with every payload field absent. -/
def emptyMsg (mtype : String) : InMsg :=
  { mtype := mtype, dx := none, dy := none, button := none, press := none,
    key := none, keys := none, text := none, delta := none }

/-- MAX_COORD clamp of the source. -/
def clampCoord (q : ℚ) : ℚ := max (-2000) (min 2000 q)

/-- Delta sanitization: a present finite number is clamped; everything
else (absent, NaN, infinite) is left exactly as it was. -/
def sanitizeNum : Option JsNum → Option JsNum
  | some (.fin q) => some (.fin (clampCoord q))
  | other => other

/-- Text sanitization: a truthy text over 500 units is cut to its
first 500 units. -/
def sanitizeText : Option String → Option String
  | some s => some (if s.length > 500 then (s.toList.take 500).asString else s)
  | none => none

/-- The validation block at the head of handleMessage. -/
def sanitize (m : InMsg) : InMsg :=
  { m with text := sanitizeText m.text,
           dx := sanitizeNum m.dx,
           dy := sanitizeNum m.dy }

/-! ## InputSink calls and the dispatch switch -/

/-- A nut-js key identifier. -/
abbrev NutKey := String

/-- Key.LeftControl, the zoom modifier. -/
def leftControl : NutKey := "LeftControl"

/-- One call into the InputSink capability. -/
inductive SinkCall where
  | setPosition (x y : JsNum)
  | pressButton (b : String)
  | releaseButton (b : String)
  | scrollDown (amount : JsNum)
  | scrollUp (amount : JsNum)
  | scrollRight (amount : JsNum)
  | scrollLeft (amount : JsNum)
  | pressKey (k : NutKey)
  | releaseKey (k : NutKey)
  | typeKey (k : NutKey)
  | typeStr (s : String)
  | settle (ms : Nat)
deriving Repr, DecidableEq

/-- Failure injection for the error-path claims: the sink call with
this position (counting the calls a handler case makes, from 0) raises
an error.  `none` means every call succeeds. -/
def fails (failAt : Option Nat) (i : Nat) : Bool := failAt == some i

/-- ASCII lowercasing of one character, as toLowerCase acts on the
key names this code path sees. -/
def lowerChar (c : Char) : Char :=
  if 'A' ≤ c ∧ c ≤ 'Z' then Char.ofNat (c.toNat + 32) else c

/-- JS String.prototype.toLowerCase for ASCII key names. -/
def jsToLower (s : String) : String := String.mk (s.toList.map lowerChar)

/-- Combo resolution: a KEY_MAP hit is a modifier-capable key, an
unmapped single-character name is a literal to type, anything else is
skipped with a diagnostic. -/
def resolveCombo (km : String → Option NutKey) : List String → List (NutKey ⊕ String)
  | [] => []
  | k :: ks =>
    match km (jsToLower k) with
    | some nk => Sum.inl nk :: resolveCombo km ks
    | none =>
      if (jsToLower k).length = 1 then Sum.inr (jsToLower k) :: resolveCombo km ks
      else resolveCombo km ks

/-- The press phase of a combo (the body of the try block): walk the
resolved items in order, typing literals and pressing modifiers, then
the 10 ms settle delay.  Returns the attempted calls and the list of
modifiers actually pressed (in press order); a failing call is
attempted but aborts the rest, and a failing pressKey does not count
as pressed. -/
def pressPhase (failAt : Option Nat) :
    List (NutKey ⊕ String) → Nat → List SinkCall × List NutKey
  | [], _ => ([.settle 10], [])
  | Sum.inl k :: rest, i =>
    if fails failAt i then ([.pressKey k], [])
    else
      let (cs, ps) := pressPhase failAt rest (i + 1)
      (.pressKey k :: cs, k :: ps)
  | Sum.inr s :: rest, i =>
    if fails failAt i then ([.typeStr s], [])
    else
      let (cs, ps) := pressPhase failAt rest (i + 1)
      (.typeStr s :: cs, ps)

/-- The combo case: resolve, reject an empty resolution with no sink
calls, otherwise press phase then the finally block releasing the
pressed modifiers in reverse press order. -/
def comboDispatch (km : String → Option NutKey) (keys : List String)
    (failAt : Option Nat) : List SinkCall :=
  if (resolveCombo km keys).isEmpty then []
  else
    (pressPhase failAt (resolveCombo km keys) 0).1
      ++ (pressPhase failAt (resolveCombo km keys) 0).2.reverse.map SinkCall.releaseKey

/-- The scaledDelta computation of the zoom case, on a finite delta. -/
def scaledDelta (q : ℚ) : ℚ :=
  (if 0 < q then 1 else if q < 0 then -1 else 0) * min (|q| * (1 / 2)) 5

/-- The switch statement of handleMessage on an already sanitized
message (move and scroll reach it only when the throttle admits them).
`cur` is the mouse position mouse.getPosition reports, `km` is KEY_MAP,
`failAt` injects a sink failure where the claims need one (zoom and
combo, the cases with guaranteed-release semantics). -/
def dispatchSwitch (m : InMsg) (cur : ℚ × ℚ) (km : String → Option NutKey)
    (failAt : Option Nat) : List SinkCall :=
  match m.mtype with
  | "move" =>
    match m.dx, m.dy with
    | some dx, some dy =>
      [.setPosition ((JsNum.fin cur.1).add dx) ((JsNum.fin cur.2).add dy)]
    | _, _ => []
  | "click" =>
    match m.button with
    | some b =>
      if m.press.getD false then [.pressButton b] else [.releaseButton b]
    | none => []
  | "scroll" =>
    (match m.dy with
     | some dy =>
       if dy ≠ .fin 0 then
         if dy.gtZero then [.scrollDown dy] else [.scrollUp dy.neg]
       else []
     | none => []) ++
    (match m.dx with
     | some dx =>
       if dx ≠ .fin 0 then
         if dx.gtZero then [.scrollRight dx] else [.scrollLeft dx.neg]
       else []
     | none => [])
  | "zoom" =>
    match m.delta with
    | some d =>
      if d ≠ .fin 0 then
        let scaled := d.sign.mul ((d.absJ.mul (.fin (1 / 2))).minJ (.fin 5))
        let amount := scaled.neg
        if fails failAt 0 then [.pressKey leftControl]
        else [.pressKey leftControl, .scrollDown amount, .releaseKey leftControl]
      else []
    | none => []
  | "key" =>
    match m.key with
    | some k =>
      if k ≠ "" then
        match km (jsToLower k) with
        | some nk => [.typeKey nk]
        | none => if k.length = 1 then [.typeStr k] else []
      else []
    | none => []
  | "combo" =>
    match m.keys with
    | some ks => if ks.isEmpty then [] else comboDispatch km ks failAt
    | none => []
  | "text" =>
    match m.text with
    | some t => if t ≠ "" then [.typeStr t] else []
    | none => []
  | _ => []

/-! ## The 16 ms move/scroll throttle (InputHandler)

The move branch and the scroll branch of handleMessage duplicate the
same logic over separate fields (lastMoveTime/pendingMove/moveTimer
and lastScrollTime/pendingScroll/scrollTimer); the machine below is
that logic with the message payload abstracted, used once per kind. -/

/-- Throttle state of one kind: time of the last applied sample, the
pending sample, and the absolute fire time of the scheduled deferred
dispatch, if one is scheduled. -/
structure ThrottleSt (α : Type) where
  lastTime : Nat
  pending : Option α
  timer : Option Nat
deriving Repr, DecidableEq

/-- Events of the throttle: the arrival of a sample at a time, and the
firing of the scheduled timer. -/
inductive TEvent (α : Type) where
  | arrive (m : α) (now : Nat)
  | fire (now : Nat)
deriving Repr, DecidableEq

/-- The arrival logic: inside an active window (less than 16 ms since
the last applied sample) the sample becomes the pending one, and a
deferred dispatch at now + 16 is scheduled only if none is scheduled;
otherwise the sample is applied now and opens a new window. -/
def handleArrive {α : Type} (st : ThrottleSt α) (m : α) (now : Nat) :
    ThrottleSt α × List (Nat × α) :=
  if now - st.lastTime < 16 then
    ({ st with pending := some m, timer := some (st.timer.getD (now + 16)) }, [])
  else
    ({ st with lastTime := now }, [(now, m)])

/-- One event step.  The timer callback clears the timer handle, takes
the pending sample if any, and re-enters the arrival logic with it
(the recursive handleMessage call of the source). -/
def tstep {α : Type} (st : ThrottleSt α) : TEvent α → ThrottleSt α × List (Nat × α)
  | .arrive m now => handleArrive st m now
  | .fire now =>
    let st1 : ThrottleSt α := { st with timer := none }
    match st1.pending with
    | none => (st1, [])
    | some p => handleArrive { st1 with pending := none } p now

/-- Run a list of events, collecting the applied samples with their
application times in order. -/
def trun {α : Type} (st : ThrottleSt α) : List (TEvent α) → ThrottleSt α × List (Nat × α)
  | [] => (st, [])
  | e :: es =>
    ((trun (tstep st e).1 es).1, (tstep st e).2 ++ (trun (tstep st e).1 es).2)

/-- The event time of a throttle event. -/
def teventTime {α : Type} : TEvent α → Nat
  | .arrive _ t => t
  | .fire t => t

/-- Realizability of an event list against the timer discipline: event
times never decrease, a fire event happens exactly at the scheduled
fire time, no arrival is processed after a scheduled fire time without
the fire having run, and the trace ends quiescent (no timer left). -/
def wfEvents {α : Type} (st : ThrottleSt α) (prev : Nat) : List (TEvent α) → Bool
  | [] => st.timer == none
  | e :: es =>
    let t := teventTime e
    let fireOk :=
      match e with
      | .fire tf => st.timer == some tf
      | .arrive _ ta =>
        match st.timer with
        | some tf => ta ≤ tf
        | none => true
    prev ≤ t && fireOk && wfEvents (tstep st e).1 t es

/-- Applied samples at least 16 ms apart, measured from a base time. -/
def gapOK {α : Type} : Nat → List (Nat × α) → Prop
  | _, [] => True
  | base, (t, _) :: rest => base + 16 ≤ t ∧ gapOK t rest

/-- The idle throttle state at server start. -/
def thStart {α : Type} : ThrottleSt α := { lastTime := 0, pending := none, timer := none }

/-! ## Helper lemmas: token store -/

lemma hasToken_touchFirst (t : String) (now : Nat) (l : List TokenEntry) :
    hasToken t (touchFirst t now l) = hasToken t l := by
  induction l with
  | nil => rfl
  | cons a l ih =>
    by_cases h : timingSafeEqual a.token t
    · simp [touchFirst, hasToken, h]
    · simp only [touchFirst, h, Bool.false_eq_true, if_false]
      simp only [hasToken, List.any_cons] at ih ⊢
      rw [ih]

lemma hasToken_storeToken (t : String) (now : Nat) (l : List TokenEntry) :
    hasToken t (storeToken t now l) = true := by
  simp only [storeToken]
  by_cases h : (purgeExpired now l).any (fun e => timingSafeEqual e.token t) = true
  · rw [if_pos h, hasToken_touchFirst]
    exact h
  · rw [if_neg h]
    simp [hasToken, timingSafeEqual]

/-- The defining equation of mostRecentlyUsed on a cons cell. -/
lemma mostRecentlyUsed_cons (a : TokenEntry) (l : List TokenEntry) :
    mostRecentlyUsed (a :: l)
      = match mostRecentlyUsed l with
        | none => some a
        | some u => if u.lastUsed > a.lastUsed then some u else some a := rfl

lemma mostRecentlyUsed_spec (l : List TokenEntry) (hl : l ≠ []) :
    ∃ e, mostRecentlyUsed l = some e ∧ e ∈ l ∧ ∀ u ∈ l, u.lastUsed ≤ e.lastUsed := by
  induction l with
  | nil => exact absurd rfl hl
  | cons a l ih =>
    rcases hl2 : l with _ | ⟨b, l2⟩
    · exact ⟨a, by simp [mostRecentlyUsed_cons, mostRecentlyUsed]⟩
    · subst hl2
      obtain ⟨e, he, hmem, hmax⟩ := ih (by simp)
      by_cases h : e.lastUsed > a.lastUsed
      · refine ⟨e, ?_, by simp [hmem], ?_⟩
        · rw [mostRecentlyUsed_cons, he]
          simp [h]
        · intro u hu
          rcases List.mem_cons.mp hu with rfl | hu
          · exact le_of_lt h
          · exact hmax u hu
      · refine ⟨a, ?_, by simp, ?_⟩
        · rw [mostRecentlyUsed_cons, he]
          simp [h]
        · intro u hu
          rcases List.mem_cons.mp hu with rfl | hu
          · exact le_refl _
          · exact le_trans (hmax u hu) (not_lt.mp h)

/-! ## C1: remote admission gate -/

/-- C1: for every upgrade request from a non-loopback address, a
missing (or empty, hence falsy) token, or a token the token store does
not recognize, yields a 401 rejection that destroys the raw socket
with no connection state created, while a known non-empty token is
admitted as remote. -/
theorem claim1_remote_admission (token : Option String) (now : Nat)
    (ts : List TokenEntry) :
    ((tokenTruthy token = false ∨ (isKnownToken (token.getD "") now ts).1 = false) →
      (upgradeDecision false token now ts).1 = .rejected401) ∧
    (∀ t, token = some t → t ≠ "" → (isKnownToken t now ts).1 = true →
      (upgradeDecision false token now ts).1 = .admitted false token) := by
  constructor
  · rintro (h | h)
    · simp [upgradeDecision, h]
    · by_cases ht : tokenTruthy token = true
      · simp [upgradeDecision, ht, h]
      · simp [upgradeDecision, ht]
  · rintro t rfl ht hk
    have htt : tokenTruthy (some t) = true := by simp [tokenTruthy, ht]
    simp [upgradeDecision, htt, hk]

/-- C1 witness: a remote request with the unknown token "nope" against
a store knowing only "good" is rejected, and one with "good" is
admitted as remote. -/
theorem claim1_remote_admission_witness :
    (upgradeDecision false (some "nope") 1000
        [{ token := "good", createdAt := 1, lastUsed := 900 }]).1 = .rejected401 ∧
    (upgradeDecision false (some "good") 1000
        [{ token := "good", createdAt := 1, lastUsed := 900 }]).1
      = .admitted false (some "good") := by
  constructor
  · exact (claim1_remote_admission (some "nope") 1000
      [{ token := "good", createdAt := 1, lastUsed := 900 }]).1 (Or.inr (by decide))
  · exact (claim1_remote_admission (some "good") 1000
      [{ token := "good", createdAt := 1, lastUsed := 900 }]).2 "good" rfl
      (by decide) (by decide)

/-! ## C7: token storage policy on admission -/

/-- C7: on admission, a presented (truthy) token ends up stored in the
token store if and only if it was already known or the caller is
remote; a previously unknown token presented by a local caller is
never stored. -/
theorem claim7_admission_token_storage (t : String) (ht : t ≠ "")
    (isLocal : Bool) (now : Nat) (ts : List TokenEntry) :
    hasToken t (connectionTokenStore (some t) isLocal now ts) = true ↔
      ((isKnownToken t now ts).1 = true ∨ isLocal = false) := by
  have htt : tokenTruthy (some t) = true := by simp [tokenTruthy, ht]
  by_cases hk : (isKnownToken t now ts).1 = true
  · simp [connectionTokenStore, htt, hk, hasToken_storeToken]
  · have hk0 : (isKnownToken t now ts).1 = false := by
      simpa using hk
    cases isLocal with
    | false =>
      simp [connectionTokenStore, htt, hasToken_storeToken]
    | true =>
      have hmem : hasToken t (isKnownToken t now ts).2 = false := by
        simpa [isKnownToken, hasToken] using hk0
      simp [connectionTokenStore, htt, hk0, hmem]

/-- C7 witness: a local caller presenting the unknown token "evil"
stores nothing, and a remote caller presenting "tok" gets it stored. -/
theorem claim7_admission_token_storage_witness :
    hasToken "evil" (connectionTokenStore (some "evil") true 1000 []) = false ∧
    hasToken "tok" (connectionTokenStore (some "tok") false 1000 []) = true := by
  constructor
  · have h := (claim7_admission_token_storage "evil" (by decide) true 1000 []).not
    simp only [Bool.not_eq_true] at h
    apply h.mpr
    simp [isKnownToken, purgeExpired]
  · exact (claim7_admission_token_storage "tok" (by decide) false 1000 []).mpr
      (Or.inr rfl)

/-! ## C10: generate-token idempotence (corrected: falsy active token) -/

/-- C10 counterexample: a store whose only unexpired entry carries the
empty-string token (a state validateTokens admits from tokens.json) is
nonempty, yet the falsy check `if (!tokenToReturn)` treats the active
token as absent: the handler generates AND stores a fresh token,
creating a new entry, instead of returning the existing one with the
store unchanged. -/
theorem claim10_generate_token_counterexample :
    purgeExpired 1000 [⟨"", 1, 900⟩] ≠ [] ∧
    mostRecentlyUsed (purgeExpired 1000 [⟨"", 1, 900⟩])
      = some (⟨"", 1, 900⟩ : TokenEntry) ∧
    generateTokenHandler true "fresh" 1000 [⟨"", 1, 900⟩]
      = (.tokenGenerated "fresh", [⟨"", 1, 900⟩, ⟨"fresh", 1000, 1000⟩]) ∧
    ("fresh" : String) ≠ "" := by
  exact ⟨by decide, by decide, by decide, by decide⟩

/-- C10 amended: a local generate-token request returns the unexpired
existing token with the greatest lastUsed and adds no entry whenever
that most-recently-used token is non-empty; a fresh token is generated
and stored when the purged store is empty -- and also in the corner
case where the most-recently-used token is the empty string, which the
falsy check `if (!tokenToReturn)` treats as absent. -/
theorem claim10_generate_token_idempotent (fresh : String) (now : Nat)
    (ts : List TokenEntry) :
    (∀ e, mostRecentlyUsed (purgeExpired now ts) = some e → e.token ≠ "" →
      e ∈ purgeExpired now ts ∧
      (∀ u ∈ purgeExpired now ts, u.lastUsed ≤ e.lastUsed) ∧
      generateTokenHandler true fresh now ts
        = (.tokenGenerated e.token, purgeExpired now ts)) ∧
    (purgeExpired now ts = [] →
      generateTokenHandler true fresh now ts
        = (.tokenGenerated fresh, storeToken fresh now []) ∧
      hasToken fresh (generateTokenHandler true fresh now ts).2 = true) ∧
    (∀ e, mostRecentlyUsed (purgeExpired now ts) = some e → e.token = "" →
      generateTokenHandler true fresh now ts
        = (.tokenGenerated fresh, storeToken fresh now (purgeExpired now ts))) := by
  refine ⟨?_, ?_, ?_⟩
  · intro e he hne
    have hl : purgeExpired now ts ≠ [] := by
      intro h0
      rw [h0] at he
      cases he
    obtain ⟨e2, he2, hmem, hmax⟩ := mostRecentlyUsed_spec _ hl
    rw [he] at he2
    obtain rfl := Option.some.inj he2
    refine ⟨hmem, hmax, ?_⟩
    simp [generateTokenHandler, getActiveToken, he, tokenTruthy, hne]
  · intro hemp
    have h1 : generateTokenHandler true fresh now ts
        = (.tokenGenerated fresh, storeToken fresh now []) := by
      simp [generateTokenHandler, getActiveToken, hemp, mostRecentlyUsed, tokenTruthy]
    exact ⟨h1, by rw [h1]; exact hasToken_storeToken fresh now []⟩
  · intro e he hemp
    simp [generateTokenHandler, getActiveToken, he, tokenTruthy, hemp]

/-- C10 amended witness: with active tokens "a" and "b" the handler
returns the most recently used "b" and leaves the purged store
unchanged; with an empty store it stores the fresh token; and with the
empty-string active token it generates and stores the fresh token. -/
theorem claim10_generate_token_idempotent_witness :
    ((⟨"b", 1, 9⟩ : TokenEntry) ∈ purgeExpired 1000 [⟨"a", 1, 5⟩, ⟨"b", 1, 9⟩] ∧
      (∀ u ∈ purgeExpired 1000 [⟨"a", 1, 5⟩, ⟨"b", 1, 9⟩],
        u.lastUsed ≤ (⟨"b", 1, 9⟩ : TokenEntry).lastUsed) ∧
      generateTokenHandler true "fresh" 1000 [⟨"a", 1, 5⟩, ⟨"b", 1, 9⟩]
        = (.tokenGenerated (⟨"b", 1, 9⟩ : TokenEntry).token,
           purgeExpired 1000 [⟨"a", 1, 5⟩, ⟨"b", 1, 9⟩])) ∧
    (generateTokenHandler true "fresh" 1000 []
        = (.tokenGenerated "fresh", storeToken "fresh" 1000 []) ∧
      hasToken "fresh" (generateTokenHandler true "fresh" 1000 []).2 = true) ∧
    generateTokenHandler true "fresh" 1000 [⟨"", 1, 900⟩]
      = (.tokenGenerated "fresh",
         storeToken "fresh" 1000 (purgeExpired 1000 [⟨"", 1, 900⟩])) := by
  refine ⟨?_, ?_, ?_⟩
  · exact (claim10_generate_token_idempotent "fresh" 1000
      [⟨"a", 1, 5⟩, ⟨"b", 1, 9⟩]).1 ⟨"b", 1, 9⟩ (by decide) (by decide)
  · exact (claim10_generate_token_idempotent "fresh" 1000 []).2.1 (by decide)
  · exact (claim10_generate_token_idempotent "fresh" 1000
      [⟨"", 1, 900⟩]).2.2 ⟨"", 1, 900⟩ (by decide) rfl

/-! ## C8: duplicate suppression and the request-frame exemption -/

/-- C8: a structured message within size bounds that is byte-identical
to the previously processed payload and arrives within 100 ms of it is
dropped with no processing and no state change; a request-frame
message is never deduplicated and always reaches the frame-request
handler (whose own in-flight guard is the only limiter), leaving the
dedup state untouched. -/
theorem claim8_request_frame_dedup_exemption (raw mtype : String) (now : Nat)
    (st : DedupSt) (hlen : raw.length ≤ MAX_PAYLOAD_SIZE) :
    (mtype ≠ "request-frame" → raw = st.lastRaw →
      now - st.lastTime < DUPLICATE_WINDOW_MS →
      routeMessage raw mtype now st = (.droppedDuplicate, st)) ∧
    (mtype = "request-frame" →
      routeMessage raw mtype now st = (.frameHandler, st)) := by
  have hl : ¬ raw.length > MAX_PAYLOAD_SIZE := by omega
  constructor
  · intro hne heq hwin
    subst heq
    simp [routeMessage, hl, hne, hwin]
  · intro he
    simp [routeMessage, hl, he]

/-- C8 witness: the identical "key" payload 50 ms later is dropped as
a duplicate, while the identical request-frame payload reaches the
frame handler. -/
theorem claim8_request_frame_dedup_exemption_witness :
    routeMessage "k1" "key" 150 { lastRaw := "k1", lastTime := 100 }
      = (.droppedDuplicate, { lastRaw := "k1", lastTime := 100 }) ∧
    routeMessage "rf" "request-frame" 150 { lastRaw := "rf", lastTime := 100 }
      = (.frameHandler, { lastRaw := "rf", lastTime := 100 }) := by
  constructor
  · exact (claim8_request_frame_dedup_exemption "k1" "key" 150
      { lastRaw := "k1", lastTime := 100 } (by decide)).1 (by decide) rfl (by decide)
  · exact (claim8_request_frame_dedup_exemption "rf" "request-frame" 150
      { lastRaw := "rf", lastTime := 100 } (by decide)).2 rfl

/-! ## C2: single in-flight capture, guaranteed cleanup -/

/-- C2: a request-frame arriving while the in-flight flag is set
causes no capture attempt, no state change and no mirror-error; every
completion (success, timeout or any other failure) leaves the flag
cleared; a failure with the socket open emits exactly one typed
mirror-error (the unsupported-environment case carries its own message
and flag); the synchronous unsupported-environment rejection also
clears the flag; and no event on this path ever closes the
connection. -/
theorem claim2_single_inflight_capture :
    (∀ st envW wsOpen, st.frameInProgress = true →
      frameStep st (.request envW wsOpen) = (st, [])) ∧
    (∀ st out wsOpen envW,
      (frameStep st (.complete out wsOpen envW)).1.frameInProgress = false) ∧
    (∀ st m envW, st.frameInProgress = true →
      frameStep st (.complete (.err m) true envW)
        = ({ st with frameInProgress := false },
           [.mirrorError (mirrorErrMessage m) envW])) ∧
    (∀ st, st.frameInProgress = false →
      frameStep st (.request true true)
        = ({ st with frameInProgress := false },
           [.mirrorError "Screen capture not supported on Wayland" true])) ∧
    (∀ st ev, Emit.closeConn ∉ (frameStep st ev).2) := by
  refine ⟨?_, ?_, ?_, ?_, ?_⟩
  · intro st envW wsOpen h
    simp [frameStep, h]
  · intro st out wsOpen envW
    by_cases h : st.frameInProgress = false
    · simp [frameStep, h]
    · rcases out with ⟨w, hgt⟩ | m <;> simp [frameStep, h]
  · intro st m envW h
    simp [frameStep, h, mirrorErrMessage]
  · intro st h
    simp [frameStep, h, mirrorErrMessage]
  · intro st ev
    rcases ev with ⟨envW, wsOpen⟩ | ⟨out, wsOpen, envW⟩
    · by_cases h : st.frameInProgress = true
      · simp [frameStep, h]
      · rcases envW <;> rcases wsOpen <;> simp [frameStep, h]
    · by_cases h : st.frameInProgress = false
      · simp [frameStep, h]
      · rcases out with ⟨w, hgt⟩ | m <;> rcases wsOpen <;> simp [frameStep, h]

/-- C2 witness: concrete states exercising the guard, the timeout
failure, the Wayland rejection and the cleanup. -/
theorem claim2_single_inflight_capture_witness :
    frameStep ⟨true, 640, 360⟩ (.request false true) = (⟨true, 640, 360⟩, []) ∧
    (frameStep ⟨true, 640, 360⟩ (.complete (.ok 1920 1080) true false)).1.frameInProgress
      = false ∧
    frameStep ⟨true, 640, 360⟩ (.complete (.err "TIMEOUT") true false)
      = (⟨false, 640, 360⟩, [.mirrorError "Mirroring failed" false]) ∧
    frameStep ⟨false, 640, 360⟩ (.request true true)
      = (⟨false, 640, 360⟩, [.mirrorError "Screen capture not supported on Wayland" true]) ∧
    Emit.closeConn ∉ (frameStep ⟨false, 640, 360⟩ (.request false true)).2 := by
  refine ⟨?_, ?_, ?_, ?_, ?_⟩
  · exact claim2_single_inflight_capture.1 ⟨true, 640, 360⟩ false true rfl
  · exact claim2_single_inflight_capture.2.1 ⟨true, 640, 360⟩ (.ok 1920 1080) true false
  · have h := claim2_single_inflight_capture.2.2.1 ⟨true, 640, 360⟩ "TIMEOUT" false rfl
    simpa [mirrorErrMessage] using h
  · exact claim2_single_inflight_capture.2.2.2.1 ⟨false, 640, 360⟩ rfl
  · exact claim2_single_inflight_capture.2.2.2.2 ⟨false, 640, 360⟩ (.request false true)

/-! ## C9: update-config validation -/

lemma validPort_spec (c : CVal) (q : ℚ) (h : validPort c = some q) :
    c = CVal.num q ∧ 1 ≤ q ∧ q ≤ 65535 ∧ q.den = 1 := by
  cases c <;> simp [validPort] at h
  next n =>
    rcases h with ⟨⟨h1, h2, h3⟩, h4⟩
    subst h4
    exact ⟨rfl, h1, h2, h3⟩

lemma filterKeys_mem (fields : List (String × CVal)) (ks : List String) :
    ∀ fs, filterKeys fields ks = some fs →
      ∀ p ∈ fs, p.1 ∈ ks ∧
        (p.1 = "frontendPort" →
          ∃ q, p.2 = CVal.num q ∧ 1 ≤ q ∧ q ≤ 65535 ∧ q.den = 1) := by
  induction ks with
  | nil =>
    intro fs h p hp
    simp [filterKeys] at h
    subst h
    simp at hp
  | cons k ks ih =>
    intro fs h p hp
    rcases hlk : lookupKey fields k with _ | v
    · simp only [filterKeys, hlk] at h
      obtain ⟨h1, h2⟩ := ih fs h p hp
      exact ⟨List.mem_cons_of_mem _ h1, h2⟩
    · by_cases hk : (k == "frontendPort") = true
      · simp only [filterKeys, hlk, hk, if_true] at h
        rcases hvp : validPort (toNumber v) with _ | q
        · rw [hvp] at h
          cases h
        · rw [hvp] at h
          rcases hrest : filterKeys fields ks with _ | rest

          · rw [hrest] at h
            cases h
          · rw [hrest] at h
            simp only [Option.map_some'] at h
            obtain rfl := Option.some.inj h
            rcases List.mem_cons.mp hp with rfl | hp2
            · refine ⟨List.mem_cons_self _ _, fun _ => ⟨q, rfl, ?_⟩⟩
              obtain ⟨_, h1, h2, h3⟩ := validPort_spec _ _ hvp
              exact ⟨h1, h2, h3⟩
            · obtain ⟨h1, h2⟩ := ih rest hrest p hp2
              exact ⟨List.mem_cons_of_mem _ h1, h2⟩
      · have hkk : k ≠ "frontendPort" := by
          simpa using hk
        rcases v with n | _ | b | s | b2 | _ | l | l <;>
          simp only [filterKeys, hlk, hk, Bool.false_eq_true, if_false] at h
        · obtain ⟨h1, h2⟩ := ih fs h p hp
          exact ⟨List.mem_cons_of_mem _ h1, h2⟩
        · obtain ⟨h1, h2⟩ := ih fs h p hp
          exact ⟨List.mem_cons_of_mem _ h1, h2⟩
        · obtain ⟨h1, h2⟩ := ih fs h p hp
          exact ⟨List.mem_cons_of_mem _ h1, h2⟩
        · by_cases hs : s.length ≤ 255
          · rw [if_pos hs] at h
            rcases hrest : filterKeys fields ks with _ | rest
            · rw [hrest] at h
              cases h
            · rw [hrest] at h
              simp only [Option.map_some'] at h
              obtain rfl := Option.some.inj h
              rcases List.mem_cons.mp hp with rfl | hp2
              · exact ⟨List.mem_cons_self _ _, fun hc => absurd hc hkk⟩
              · obtain ⟨h1, h2⟩ := ih rest hrest p hp2
                exact ⟨List.mem_cons_of_mem _ h1, h2⟩
          · rw [if_neg hs] at h
            obtain ⟨h1, h2⟩ := ih fs h p hp
            exact ⟨List.mem_cons_of_mem _ h1, h2⟩
        · obtain ⟨h1, h2⟩ := ih fs h p hp
          exact ⟨List.mem_cons_of_mem _ h1, h2⟩
        · obtain ⟨h1, h2⟩ := ih fs h p hp
          exact ⟨List.mem_cons_of_mem _ h1, h2⟩
        · obtain ⟨h1, h2⟩ := ih fs h p hp
          exact ⟨List.mem_cons_of_mem _ h1, h2⟩
        · obtain ⟨h1, h2⟩ := ih fs h p hp
          exact ⟨List.mem_cons_of_mem _ h1, h2⟩

lemma filterKeys_badPort (fields : List (String × CVal)) (v : CVal)
    (hv : lookupKey fields "frontendPort" = some v)
    (hbad : validPort (toNumber v) = none) :
    filterKeys fields SERVER_CONFIG_KEYS = none := by
  rcases hh : lookupKey fields "host" with _ | v0
  · simp [SERVER_CONFIG_KEYS, filterKeys, hh, hv, hbad]
  · rcases v0 with n | _ | b | s | b2 | _ | l | l <;>
      simp [SERVER_CONFIG_KEYS, filterKeys, hh, hv, hbad]

/-- C9: an update-config message only ever writes allow-listed keys
with validated values (in particular any written frontendPort is an
integer in [1, 65535]); a present frontendPort that fails validation
makes the whole handler answer with the structured invalid-port
failure and write nothing; a non-object payload is answered with the
structured invalid-payload failure; and every failure outcome is a
config-updated message with success false that leaves the connection
open. -/
theorem claim9_update_config_validation :
    (∀ cfg fs, updateConfigHandler cfg = .updated fs →
      ∀ p ∈ fs, p.1 ∈ SERVER_CONFIG_KEYS ∧
        (p.1 = "frontendPort" →
          ∃ q, p.2 = CVal.num q ∧ 1 ≤ q ∧ q ≤ 65535 ∧ q.den = 1)) ∧
    (∀ fields v, lookupKey fields "frontendPort" = some v →
      validPort (toNumber v) = none →
      updateConfigHandler (some (.objv fields)) = .invalidPort) ∧
    (∀ cfg, (∀ fields, cfg ≠ some (.objv fields)) →
      updateConfigHandler cfg = .invalidPayload) ∧
    (∀ r, (∀ fs, r ≠ .updated fs) → ucResponse r = (false, false)) := by
  refine ⟨?_, ?_, ?_, ?_⟩
  · intro cfg fs h p hp
    rcases cfg with _ | v
    · cases h
    · rcases v with n | _ | b | s | b | _ | l | fields
      case objv =>
        rcases hf : filterKeys fields SERVER_CONFIG_KEYS with _ | l2
        · simp [updateConfigHandler, hf] at h
        · rcases l2 with _ | ⟨a, l3⟩
          · simp [updateConfigHandler, hf] at h
          · simp only [updateConfigHandler, hf] at h
            obtain rfl := (UCResult.updated.injEq _ _).mp h
            exact filterKeys_mem fields SERVER_CONFIG_KEYS _ hf p hp
      all_goals cases h
  · intro fields v hv hbad
    simp [updateConfigHandler, filterKeys_badPort fields v hv hbad]
  · intro cfg hne
    rcases cfg with _ | v
    · rfl
    · rcases v with n | _ | b | s | b | _ | l | fields
      case objv => exact absurd rfl (hne fields)
      all_goals rfl
  · intro r h
    rcases r with _ | _ | _ | fs
    · rfl
    · rfl
    · rfl
    · exact absurd rfl (h fs)

/-- C9 witness: port 80.5 is rejected with nothing written; the valid
object writes exactly the allow-listed host and integral port 80; the
array payload is the structured invalid-payload failure; and the
invalid-port outcome reports success false without closing. -/
theorem claim9_update_config_validation_witness :
    updateConfigHandler (some (.objv [("frontendPort", .num (161 / 2))]))
      = .invalidPort ∧
    (("frontendPort", CVal.num 80).1 ∈ SERVER_CONFIG_KEYS ∧
      (("frontendPort", CVal.num 80).1 = "frontendPort" →
        ∃ q, ("frontendPort", CVal.num 80).2 = CVal.num q ∧
          1 ≤ q ∧ q ≤ 65535 ∧ q.den = 1)) ∧
    updateConfigHandler (some (.arrv [])) = .invalidPayload ∧
    ucResponse .invalidPort = (false, false) := by
  refine ⟨?_, ?_, ?_, ?_⟩
  · exact claim9_update_config_validation.2.1 [("frontendPort", .num (161 / 2))]
      (.num (161 / 2)) rfl (by norm_num [validPort, toNumber])
  · refine claim9_update_config_validation.1
      (some (.objv [("host", .str "h"), ("frontendPort", .num 80)]))
      [("host", .str "h"), ("frontendPort", .num 80)] rfl
      ("frontendPort", CVal.num 80) ?_
    exact List.Mem.tail _ (List.Mem.head _)
  · exact claim9_update_config_validation.2.2.1 (some (.arrv []))
      (fun fields h => CVal.noConfusion (Option.some.inj h))
  · exact claim9_update_config_validation.2.2.2 .invalidPort
      (fun fs h => UCResult.noConfusion h)

/-! ## C5: zoom with scoped modifier -/

/-- C5: a zoom message with non-zero finite delta makes exactly one
scroll call, with magnitude min of half the absolute delta and the
step cap 5 and with the sign of the delta preserved in the scaled
value, and the zoom modifier is pressed before the scroll and released
after it, the release happening also when the scroll call raises. -/
theorem claim5_zoom_scoped_modifier (m : InMsg) (q : ℚ) (cur : ℚ × ℚ)
    (km : String → Option NutKey) (failAt : Option Nat)
    (hm : m.mtype = "zoom") (hd : m.delta = some (.fin q)) (hq : q ≠ 0)
    (hp : failAt ≠ some 0) :
    dispatchSwitch m cur km failAt
      = [.pressKey leftControl, .scrollDown (.fin (-(scaledDelta q))),
         .releaseKey leftControl] ∧
    |scaledDelta q| = min (|q| * (1 / 2)) 5 ∧
    (0 < q → 0 < scaledDelta q) ∧ (q < 0 → scaledDelta q < 0) := by
  have habs : (0 : ℚ) < |q| := abs_pos.mpr hq
  have hmp : (0 : ℚ) < min (|q| * (1 / 2)) 5 :=
    lt_min (mul_pos habs (by norm_num)) (by norm_num)
  have hf : fails failAt 0 = false := by
    rcases failAt with _ | n
    · rfl
    · have hn : n ≠ 0 := fun h => hp (by rw [h])
      simp [fails, hn]
  refine ⟨?_, ?_, ?_, ?_⟩
  · have hne : JsNum.fin q ≠ JsNum.fin 0 := by simpa using hq
    simp [dispatchSwitch, hm, hd, hne, hf, JsNum.sign, JsNum.absJ, JsNum.mul,
      JsNum.minJ, JsNum.neg, scaledDelta]
  · rcases lt_or_gt_of_ne hq with hlt | hgt
    · have h1 : ¬ (0 : ℚ) < q := not_lt.mpr hlt.le
      have h2 : scaledDelta q = -(min (|q| * (1 / 2)) 5) := by
        simp [scaledDelta, h1, hlt]
      rw [h2, abs_neg, abs_of_nonneg hmp.le]
    · have h2 : scaledDelta q = min (|q| * (1 / 2)) 5 := by
        simp [scaledDelta, hgt]
      rw [h2, abs_of_nonneg hmp.le]
  · intro hgt
    have h2 : scaledDelta q = min (|q| * (1 / 2)) 5 := by
      simp [scaledDelta, hgt]
    rw [h2]
    exact hmp
  · intro hlt
    have h1 : ¬ (0 : ℚ) < q := not_lt.mpr hlt.le
    have h2 : scaledDelta q = -(min (|q| * (1 / 2)) 5) := by
      simp [scaledDelta, h1, hlt]
    rw [h2]
    exact neg_neg_of_pos hmp

/-- C5 witness: a zoom with delta 12 and a failing scroll call still
presses, scrolls once with magnitude 5, and releases; the scaled value
is positive with absolute value min(6, 5) = 5. -/
theorem claim5_zoom_scoped_modifier_witness :
    dispatchSwitch { emptyMsg "zoom" with delta := some (.fin 12) } (0, 0)
        (fun _ => none) (some 1)
      = [.pressKey leftControl, .scrollDown (.fin (-(scaledDelta 12))),
         .releaseKey leftControl] ∧
    |scaledDelta 12| = min (|(12 : ℚ)| * (1 / 2)) 5 ∧
    ((0 : ℚ) < 12 → 0 < scaledDelta 12) ∧ ((12 : ℚ) < 0 → scaledDelta 12 < 0) := by
  exact claim5_zoom_scoped_modifier { emptyMsg "zoom" with delta := some (.fin 12) }
    12 (0, 0) (fun _ => none) (some 1) rfl rfl (by norm_num) (by decide)

/-! ## C4: combo press order and guaranteed reverse release -/

/-- The modifier-capable keys among the resolved combo items. -/
def comboModifiers (l : List (NutKey ⊕ String)) : List NutKey :=
  l.filterMap (fun x => match x with | Sum.inl k => some k | Sum.inr _ => none)

/-- The failure-free press phase: presses and literal types in listed
order, then the settle delay. -/
def fullPressCalls : List (NutKey ⊕ String) → List SinkCall
  | [] => [.settle 10]
  | Sum.inl k :: r => .pressKey k :: fullPressCalls r
  | Sum.inr s :: r => .typeStr s :: fullPressCalls r

lemma pressPhase_none (l : List (NutKey ⊕ String)) (i : Nat) :
    pressPhase none l i = (fullPressCalls l, comboModifiers l) := by
  induction l generalizing i with
  | nil => rfl
  | cons x rest ih =>
    rcases x with k | s
    · simp [pressPhase, fails, fullPressCalls, comboModifiers, ih]
    · simp [pressPhase, fails, fullPressCalls, comboModifiers, ih]

lemma pressPhase_pressed (l : List (NutKey ⊕ String)) (failAt : Option Nat)
    (i : Nat) : ∃ n, (pressPhase failAt l i).2 = comboModifiers (l.take n) := by
  induction l generalizing i with
  | nil => exact ⟨0, rfl⟩
  | cons x rest ih =>
    rcases x with k | s
    · by_cases hf : fails failAt i = true
      · exact ⟨0, by simp [pressPhase, hf, comboModifiers]⟩
      · obtain ⟨n, hn⟩ := ih (i + 1)
        refine ⟨n + 1, ?_⟩
        simp [pressPhase, hf, comboModifiers, List.take] at hn ⊢
        exact hn
    · by_cases hf : fails failAt i = true
      · exact ⟨0, by simp [pressPhase, hf, comboModifiers]⟩
      · obtain ⟨n, hn⟩ := ih (i + 1)
        refine ⟨n + 1, ?_⟩
        simp [pressPhase, hf, comboModifiers, List.take] at hn ⊢
        exact hn

/-- C4: a combo resolving to nothing makes no sink call; otherwise the
trace is the attempted press phase followed by releases of exactly the
pressed modifiers in strict reverse press order (for every failure
point, covering a failing later press, literal type, or settle delay),
the pressed modifiers being an in-order prefix of the resolved
modifier list; with no failure, all resolved keys are pressed or typed
in listed order and all modifiers are released in reverse. -/
theorem claim4_combo_reverse_release (km : String → Option NutKey)
    (keys : List String) (failAt : Option Nat) :
    (resolveCombo km keys = [] →
      ∀ m cur, m.mtype = "combo" → m.keys = some keys →
        dispatchSwitch m cur km failAt = []) ∧
    (resolveCombo km keys ≠ [] →
      ∃ n, comboDispatch km keys failAt
          = (pressPhase failAt (resolveCombo km keys) 0).1
            ++ (comboModifiers ((resolveCombo km keys).take n)).reverse.map
                SinkCall.releaseKey ∧
        (pressPhase failAt (resolveCombo km keys) 0).2
          = comboModifiers ((resolveCombo km keys).take n)) ∧
    (failAt = none → resolveCombo km keys ≠ [] →
      comboDispatch km keys failAt
        = fullPressCalls (resolveCombo km keys)
          ++ (comboModifiers (resolveCombo km keys)).reverse.map
              SinkCall.releaseKey) := by
  refine ⟨?_, ?_, ?_⟩
  · intro h m cur hm hk
    by_cases hke : keys.isEmpty = true
    · simp [dispatchSwitch, hm, hk, hke]
    · simp [dispatchSwitch, hm, hk, hke, comboDispatch, h]
  · intro hne
    obtain ⟨n, hn⟩ := pressPhase_pressed (resolveCombo km keys) failAt 0
    have hie : (resolveCombo km keys).isEmpty = false := by
      simpa [List.isEmpty_iff] using hne
    exact ⟨n, by simp [comboDispatch, hie, hn], hn⟩
  · intro hfa hne
    subst hfa
    have hie : (resolveCombo km keys).isEmpty = false := by
      simpa [List.isEmpty_iff] using hne
    simp [comboDispatch, hie, pressPhase_none]

/-- A KEY_MAP fragment for the witness, modelled from the spec: ctrl
and shift resolve to modifier-capable keys, other names are unmapped. -/
def sampleKeyMap : String → Option NutKey :=
  fun s => if s = "ctrl" then some "LeftControl"
    else if s = "shift" then some "LeftShift" else none

/-- C4 witness: combo [ctrl, shift, k] with the literal-key step
raising still presses ctrl then shift, attempts the k type, and then
releases shift before ctrl (strict reverse press order). -/
theorem claim4_combo_reverse_release_witness :
    resolveCombo sampleKeyMap ["ctrl", "shift", "k"] ≠ [] ∧
    (∃ n, comboDispatch sampleKeyMap ["ctrl", "shift", "k"] (some 2)
        = (pressPhase (some 2) (resolveCombo sampleKeyMap ["ctrl", "shift", "k"]) 0).1
          ++ (comboModifiers ((resolveCombo sampleKeyMap ["ctrl", "shift", "k"]).take n)).reverse.map
              SinkCall.releaseKey ∧
      (pressPhase (some 2) (resolveCombo sampleKeyMap ["ctrl", "shift", "k"]) 0).2
        = comboModifiers ((resolveCombo sampleKeyMap ["ctrl", "shift", "k"]).take n)) ∧
    comboDispatch sampleKeyMap ["ctrl", "shift", "k"] (some 2)
      = [.pressKey "LeftControl", .pressKey "LeftShift", .typeStr "k",
         .releaseKey "LeftShift", .releaseKey "LeftControl"] := by
  refine ⟨by decide, ?_, by decide⟩
  exact (claim4_combo_reverse_release sampleKeyMap ["ctrl", "shift", "k"]
    (some 2)).2.1 (by decide)

/-! ## C6: sanitization (corrected: non-finite deltas pass through) -/

/-- C6 counterexample: a move message with dx = NaN passes sanitization
unchanged and the sink receives a NaN coordinate, so a non-finite value
is forwarded to the input sink. -/
theorem claim6_nonfinite_counterexample :
    (sanitize { emptyMsg "move" with dx := some JsNum.nan, dy := some (JsNum.fin 0) }).dx
      = some JsNum.nan ∧
    dispatchSwitch
        (sanitize { emptyMsg "move" with dx := some JsNum.nan, dy := some (JsNum.fin 0) })
        (3, 4) (fun _ => none) none
      = [SinkCall.setPosition JsNum.nan (JsNum.fin 4)] ∧
    JsNum.isFinite JsNum.nan = false := by
  refine ⟨rfl, ?_, rfl⟩
  have hc : clampCoord 0 = 0 := by
    simp [clampCoord]
  simp [sanitize, sanitizeNum, sanitizeText, emptyMsg, dispatchSwitch, JsNum.add, hc]

/-- C6 amended: a text payload over 500 units is truncated to exactly
its first 500 units and every present finite dx or dy is clamped into
[-2000, 2000]; a non-finite dx or dy is NOT treated as absent: it
passes sanitization unchanged (and can be forwarded to the sink, as
the counterexample shows). -/
theorem claim6_sanitize_amended :
    (∀ m s, m.text = some s → 500 < s.length →
      (sanitize m).text = some ((s.toList.take 500).asString) ∧
      ((s.toList.take 500).asString).length = 500) ∧
    (∀ m q, m.dx = some (.fin q) →
      (sanitize m).dx = some (.fin (clampCoord q)) ∧
      -2000 ≤ clampCoord q ∧ clampCoord q ≤ 2000) ∧
    (∀ m q, m.dy = some (.fin q) →
      (sanitize m).dy = some (.fin (clampCoord q))) ∧
    (∀ m j, m.dx = some j → j.isFinite = false → (sanitize m).dx = some j) ∧
    (∀ m j, m.dy = some j → j.isFinite = false → (sanitize m).dy = some j) := by
  refine ⟨?_, ?_, ?_, ?_, ?_⟩
  · intro m s hs hlen
    constructor
    · simp [sanitize, sanitizeText, hs, hlen]
    · have h1 : ((s.toList.take 500).asString).length = (s.toList.take 500).length := rfl
      have h2 : s.toList.length = s.length := rfl
      rw [h1, List.length_take]
      omega
  · intro m q hq
    refine ⟨by simp [sanitize, sanitizeNum, hq], le_max_left _ _, ?_⟩
    exact max_le (by norm_num) (min_le_left _ _)
  · intro m q hq
    simp [sanitize, sanitizeNum, hq]
  · intro m j hj hfin
    rcases j with q | _ | _ | _
    · simp [JsNum.isFinite] at hfin
    · simp [sanitize, sanitizeNum, hj]
    · simp [sanitize, sanitizeNum, hj]
    · simp [sanitize, sanitizeNum, hj]
  · intro m j hj hfin
    rcases j with q | _ | _ | _
    · simp [JsNum.isFinite] at hfin
    · simp [sanitize, sanitizeNum, hj]
    · simp [sanitize, sanitizeNum, hj]
    · simp [sanitize, sanitizeNum, hj]

/-- C6 amended witness: a 501-unit text is cut to 500 units, dx = 5000
is clamped to 2000, and a positive-infinite dy passes through. -/
theorem claim6_sanitize_amended_witness :
    ((sanitize { emptyMsg "text" with text := some (String.mk (List.replicate 501 'a')) }).text
      = some (((String.mk (List.replicate 501 'a')).toList.take 500).asString) ∧
      ((((String.mk (List.replicate 501 'a')).toList.take 500).asString)).length = 500) ∧
    ((sanitize { emptyMsg "move" with dx := some (.fin 5000) }).dx
      = some (.fin (clampCoord 5000)) ∧
      -2000 ≤ clampCoord 5000 ∧ clampCoord 5000 ≤ 2000) ∧
    (sanitize { emptyMsg "move" with dy := some JsNum.posInf }).dy
      = some JsNum.posInf := by
  refine ⟨?_, ?_, ?_⟩
  · refine claim6_sanitize_amended.1 _ (String.mk (List.replicate 501 'a')) rfl ?_
    have h : (String.mk (List.replicate 501 'a')).length = 501 := by
      show (List.replicate 501 'a').length = 501
      rw [List.length_replicate]
    omega
  · exact claim6_sanitize_amended.2.1 _ 5000 rfl
  · exact claim6_sanitize_amended.2.2.2.2 _ JsNum.posInf rfl rfl

/-! ## C3: throttle lemmas -/

/-- The application time of the last dispatched sample, defaulting to
a base time. -/
def lastD {α : Type} (base : Nat) : List (Nat × α) → Nat
  | [] => base
  | (t, _) :: l => lastD t l

/-- The last element of a list, defaulting to a base value. -/
def lastPayload {α : Type} (p : α) : List α → α
  | [] => p
  | x :: l => lastPayload x l

lemma lastD_cons {α : Type} (b t : Nat) (m : α) (l : List (Nat × α)) :
    lastD b ((t, m) :: l) = lastD t l := rfl

lemma lastD_append {α : Type} (l1 l2 : List (Nat × α)) : ∀ b,
    lastD b (l1 ++ l2) = lastD (lastD b l1) l2 := by
  induction l1 with
  | nil => intro b; rfl
  | cons x l1 ih =>
    intro b
    rcases x with ⟨t, m⟩
    rw [List.cons_append, lastD_cons, ih, lastD_cons]

lemma gapOK_append {α : Type} (l1 l2 : List (Nat × α)) : ∀ b,
    gapOK b l1 → gapOK (lastD b l1) l2 → gapOK b (l1 ++ l2) := by
  induction l1 with
  | nil => intro b _ h2; exact h2
  | cons x l1 ih =>
    intro b h1 h2
    rcases x with ⟨t, m⟩
    rw [lastD_cons] at h2
    exact ⟨h1.1, ih t h1.2 h2⟩

lemma handleArrive_spec {α : Type} (st : ThrottleSt α) (m : α) (now : Nat) :
    gapOK st.lastTime (handleArrive st m now).2 ∧
    (handleArrive st m now).1.lastTime
      = lastD st.lastTime (handleArrive st m now).2 := by
  by_cases h : now - st.lastTime < 16
  · simp [handleArrive, h, gapOK, lastD]
  · have h16 : st.lastTime + 16 ≤ now := by omega
    simp [handleArrive, h, gapOK, lastD, h16]

lemma tstep_spec {α : Type} (st : ThrottleSt α) (e : TEvent α) :
    gapOK st.lastTime (tstep st e).2 ∧
    (tstep st e).1.lastTime = lastD st.lastTime (tstep st e).2 := by
  rcases e with ⟨m, now⟩ | now
  · exact handleArrive_spec st m now
  · rcases hp : st.pending with _ | p
    · simp [tstep, hp, gapOK, lastD]
    · simpa [tstep, hp] using
        handleArrive_spec { st with timer := none, pending := none } p now

lemma trun_spec {α : Type} (evs : List (TEvent α)) : ∀ st : ThrottleSt α,
    gapOK st.lastTime (trun st evs).2 ∧
    (trun st evs).1.lastTime = lastD st.lastTime (trun st evs).2 := by
  induction evs with
  | nil => intro st; exact ⟨trivial, rfl⟩
  | cons e evs ih =>
    intro st
    obtain ⟨hg1, hl1⟩ := tstep_spec st e
    obtain ⟨hg2, hl2⟩ := ih (tstep st e).1
    rw [hl1] at hg2 hl2
    constructor
    · exact gapOK_append _ _ _ hg1 hg2
    · rw [show trun st (e :: evs)
          = ((trun (tstep st e).1 evs).1,
             (tstep st e).2 ++ (trun (tstep st e).1 evs).2) from rfl]
      rw [lastD_append]
      exact hl2

lemma trun_append {α : Type} (l1 l2 : List (TEvent α)) : ∀ st : ThrottleSt α,
    trun st (l1 ++ l2)
      = ((trun (trun st l1).1 l2).1,
         (trun st l1).2 ++ (trun (trun st l1).1 l2).2) := by
  induction l1 with
  | nil => intro st; simp [trun]
  | cons e l1 ih =>
    intro st
    simp [trun, ih, List.append_assoc]

lemma trun_burst_inv {α : Type} (more : List (α × Nat)) : ∀ (t1 T : Nat) (p : α),
    (∀ x ∈ more, t1 < x.2 ∧ x.2 < t1 + 16) →
    trun ⟨t1, some p, some T⟩ (more.map (fun x => TEvent.arrive x.1 x.2))
      = (⟨t1, some (lastPayload p (more.map Prod.fst)), some T⟩, []) := by
  induction more with
  | nil => intro t1 T p _; rfl
  | cons x more ih =>
    intro t1 T p h
    rcases x with ⟨m2, t2⟩
    have hb := h (m2, t2) (List.mem_cons_self _ _)
    have hw : t2 - t1 < 16 := by omega
    have e1 : tstep (⟨t1, some p, some T⟩ : ThrottleSt α) (.arrive m2 t2)
        = (⟨t1, some m2, some T⟩, []) := by
      simp [tstep, handleArrive, hw, Option.getD]
    have ih2 := ih t1 T m2 (fun x hx => h x (List.mem_cons_of_mem _ hx))
    simp only [List.map_cons, trun, e1, ih2, List.nil_append, lastPayload]

/-! ## C3: corrected claim -/

/-- C3 counterexample: three move samples at 100, 110 and 120 ms, each
within 16 ms of its predecessor, on a realizable timer trace (timer
scheduled at 110 fires at 126, rescheduled fires at 142).  The sink
receives the sample of 110 ms LAST (at 142 ms), after the newer 120 ms
sample was applied at 120 ms: the final applied motion differs from
the last event received before the window closed. -/
theorem claim3_throttle_counterexample :
    wfEvents (thStart : ThrottleSt Nat) 0
        [.arrive 1 100, .arrive 2 110, .arrive 3 120, .fire 126, .fire 142] = true ∧
    (110 - 100 < 16 ∧ 120 - 110 < 16) ∧
    (trun (thStart : ThrottleSt Nat)
        [.arrive 1 100, .arrive 2 110, .arrive 3 120, .fire 126, .fire 142]).2
      = [(100, 1), (120, 3), (142, 2)] := by
  exact ⟨by decide, by decide, by decide⟩

/-- C3 amended: the sink receives at most one applied motion per 16 ms
window (consecutive applied samples are at least 16 ms apart, for
every event sequence); a sample arriving inside an active window
overwrites the pending sample and schedules no second deferred
dispatch; and the final applied motion equals the last event received
in a burst that stays inside one 16 ms window of its first event --
but NOT for every fast sequence, since an arrival that reopens the
window while a pending sample is outstanding lets the stale pending
sample be re-applied after the newer one (see the counterexample). -/
theorem claim3_throttle_amended {α : Type} :
    (∀ (st : ThrottleSt α) (evs : List (TEvent α)),
      gapOK st.lastTime (trun st evs).2) ∧
    (∀ (st : ThrottleSt α) (m : α) (now : Nat), now - st.lastTime < 16 →
      handleArrive st m now
        = ({ st with pending := some m,
                     timer := some (st.timer.getD (now + 16)) }, [])) ∧
    (∀ (st : ThrottleSt α) (m : α) (now T : Nat), now - st.lastTime < 16 →
      st.timer = some T → (handleArrive st m now).1.timer = some T) ∧
    (∀ (st : ThrottleSt α) (m1 : α) (t1 : Nat) (m2 : α) (t2 : Nat)
        (more : List (α × Nat)),
      st.pending = none → st.timer = none → st.lastTime + 16 ≤ t1 →
      t1 < t2 → t2 < t1 + 16 →
      (∀ x ∈ more, t1 < x.2 ∧ x.2 < t1 + 16) →
      (trun st ((TEvent.arrive m1 t1 :: TEvent.arrive m2 t2 ::
          more.map (fun x => TEvent.arrive x.1 x.2)) ++ [TEvent.fire (t2 + 16)])).2
        = [(t1, m1), (t2 + 16, lastPayload m2 (more.map Prod.fst))]) := by
  refine ⟨?_, ?_, ?_, ?_⟩
  · intro st evs
    exact (trun_spec evs st).1
  · intro st m now h
    simp [handleArrive, h]
  · intro st m now T h hT
    simp [handleArrive, h, hT]
  · intro st m1 t1 m2 t2 more hp ht h16 h12 hw hmore
    obtain ⟨lt0, pend0, tim0⟩ := st
    simp only at hp ht h16
    subst hp
    subst ht
    have hn1 : ¬ (t1 - lt0 < 16) := by omega
    have e1 : tstep (⟨lt0, none, none⟩ : ThrottleSt α) (.arrive m1 t1)
        = (⟨t1, none, none⟩, [(t1, m1)]) := by
      simp [tstep, handleArrive, hn1]
    have hw2 : t2 - t1 < 16 := by omega
    have e2 : tstep (⟨t1, none, none⟩ : ThrottleSt α) (.arrive m2 t2)
        = (⟨t1, some m2, some (t2 + 16)⟩, []) := by
      simp [tstep, handleArrive, hw2, Option.getD]
    have e3 := trun_burst_inv more t1 (t2 + 16) m2 hmore
    have hn2 : ¬ (t2 + 16 - t1 < 16) := by omega
    have e4 : tstep (⟨t1, some (lastPayload m2 (more.map Prod.fst)),
          some (t2 + 16)⟩ : ThrottleSt α) (.fire (t2 + 16))
        = (⟨t2 + 16, none, none⟩, [(t2 + 16, lastPayload m2 (more.map Prod.fst))]) := by
      simp [tstep, handleArrive, hn2]
    rw [trun_append]
    simp only [trun, e1, e2, e3, e4]
    simp

/-- C3 amended witness: the rate bound instantiated on the
counterexample trace; an in-window arrival at 110 overwriting pending
7 with 9 while keeping the timer at 116; and a single-window burst
(100, 110, 115) whose final applied motion is its last event 3,
applied at the window boundary 126. -/
theorem claim3_throttle_amended_witness :
    gapOK (thStart : ThrottleSt Nat).lastTime
      (trun (thStart : ThrottleSt Nat)
        [.arrive 1 100, .arrive 2 110, .arrive 3 120, .fire 126, .fire 142]).2 ∧
    handleArrive (⟨100, some 7, some 116⟩ : ThrottleSt Nat) 9 110
      = (⟨100, some 9, some ((some 116 : Option Nat).getD (110 + 16))⟩, []) ∧
    (handleArrive (⟨100, some 7, some 116⟩ : ThrottleSt Nat) 9 110).1.timer
      = some 116 ∧
    (trun (thStart : ThrottleSt Nat) ((TEvent.arrive 1 100 :: TEvent.arrive 2 110 ::
        ([((3 : Nat), (115 : Nat))].map (fun x => TEvent.arrive x.1 x.2)))
          ++ [TEvent.fire (110 + 16)])).2
      = [(100, 1), (110 + 16, lastPayload 2 ([((3 : Nat), (115 : Nat))].map Prod.fst))] := by
  refine ⟨?_, ?_, ?_, ?_⟩
  · exact claim3_throttle_amended.1 thStart
      [.arrive 1 100, .arrive 2 110, .arrive 3 120, .fire 126, .fire 142]
  · exact claim3_throttle_amended.2.1 (⟨100, some 7, some 116⟩ : ThrottleSt Nat) 9 110
      (by decide)
  · exact claim3_throttle_amended.2.2.1 (⟨100, some 7, some 116⟩ : ThrottleSt Nat) 9 110
      116 (by decide) rfl
  · exact claim3_throttle_amended.2.2.2 thStart 1 100 2 110 [((3 : Nat), (115 : Nat))]
      rfl rfl (by decide) (by decide) (by decide) (by decide)

end Rein
